import Mathlib

/-!
Verification of the read-through caching layer of the repository
(`src/utils/cache.py`), shallowly embedded in Lean 4.

Modelling conventions:
* JSON documents are modelled by the inductive `JsonVal`; the textual
  encode/parse layer (`json.dumps` / `json.loads`) is abstracted: a byte
  payload is either empty (`b""`), a well-formed JSON document, or
  unparsable garbage.  `json.dumps` of a document followed by
  `json.loads` is taken to reproduce the document.
* The Redis backend is not reimplemented; each backend call made by the
  wrapper is represented by its outcome (`Except Exc ...`), exactly one
  outcome per call site, and the bulk-invalidation functions act on an
  explicit association-list store.
* Python exceptions are the type `Exc`; `redis.RedisError` and all other
  exceptions are distinguished because the source has separate handlers
  for them (the handlers happen to behave identically).
* `StandardResponse` is a pydantic v2 model (the repository uses
  `pydantic_settings` and `ConfigDict`, which are v2-only), so keyword
  construction validates every explicitly passed field and raises
  `ValidationError` on an ill-typed value.  In particular `message` is
  annotated `str` with default `None`: the default is taken silently
  (defaults are not validated), but an explicitly passed null raises.
  Missing fields take their defaults; extra keys are ignored (the
  default `extra` policy).
* The producer (`func`) may be invoked more than once by the wrapper, so
  it is modelled as a map from the invocation index to that invocation's
  outcome.
-/

/-- Python exception values reaching the cache layer: `redis.RedisError`
and every other `Exception`, each carrying its text `str(e)`. -/
inductive Exc where
  | redisError (msg : String)
  | otherError (msg : String)
deriving DecidableEq, Repr

/-- A JSON document, as produced by `json.loads`. Object fields model a
parsed Python dict, so keys are unique and ordered. Numbers are carried
as integers; float payloads do not occur in the claims. -/
inductive JsonVal where
  | null
  | bool (b : Bool)
  | num (n : Int)
  | str (s : String)
  | arr (l : List JsonVal)
  | obj (l : List (String × JsonVal))

/-- A non-empty byte payload as stored in the backend: either the
encoding of a JSON document, or bytes that `json.loads` rejects. -/
inductive Bytes where
  | empty
  | json (j : JsonVal)
  | garbage

/-- Truthiness of the value returned by `redis.get`: `None` and the empty
byte string are falsy, everything else truthy (`if cached_value:`). -/
def isTruthy : Option Bytes → Bool
  | none => false
  | some .empty => false
  | some _ => true

/-- `json.loads` on a stored payload: succeeds exactly on well-formed
JSON bytes; raises `ValueError` (an `Exception`) otherwise. -/
def loads : Bytes → Except Exc JsonVal
  | .empty => .error (.otherError "Expecting value")
  | .garbage => .error (.otherError "Expecting value")
  | .json j => .ok j

/-- `src/models/response/StandardResponse.py`: the pydantic v2 model
with fields `data : dict[str, Any] | None` (default `None`),
`status : str` (default `"success"`) and `message : str` (default
`None`).  A value of `none` for `data` or `message` is reachable only
through the unvalidated default. -/
structure StandardResponse where
  data : Option (List (String × JsonVal)) := none
  status : String := "success"
  message : Option String := none

/-- `StandardResponse.to_dict` (lines 9-14 of the source file). -/
def StandardResponse.to_dict (r : StandardResponse) : JsonVal :=
  .obj [("data", match r.data with | none => .null | some f => .obj f),
        ("status", .str r.status),
        ("message", match r.message with | none => .null | some m => .str m)]

/-- pydantic v2 validation of a value passed for
`data : dict[str, Any] | None`: an object or null is accepted, any
other value raises `ValidationError`. -/
def validateData : JsonVal → Except Exc (Option (List (String × JsonVal)))
  | .null => .ok none
  | .obj fields => .ok (some fields)
  | _ => .error (.otherError "validation error: data")

/-- pydantic v2 validation of a value passed for `status : str`: only a
string is accepted. -/
def validateStatus : JsonVal → Except Exc String
  | .str s => .ok s
  | _ => .error (.otherError "validation error: status")

/-- pydantic v2 validation of a value passed for `message : str`: only a
string is accepted; in particular an explicitly passed null raises,
although the default of the field is `None` (defaults are not
validated). -/
def validateMessage : JsonVal → Except Exc String
  | .str s => .ok s
  | _ => .error (.otherError "validation error: message")

/-- The `data` keyword of `StandardResponse(**fields)`: validated when
provided, the unvalidated default otherwise. -/
def StandardResponse.dataField (fields : List (String × JsonVal)) :
    Except Exc (Option (List (String × JsonVal))) :=
  match fields.lookup "data" with
  | none => .ok none
  | some v => validateData v

/-- The `status` keyword of `StandardResponse(**fields)`. -/
def StandardResponse.statusField (fields : List (String × JsonVal)) :
    Except Exc String :=
  match fields.lookup "status" with
  | none => .ok "success"
  | some v => validateStatus v

/-- The `message` keyword of `StandardResponse(**fields)`. -/
def StandardResponse.messageField (fields : List (String × JsonVal)) :
    Except Exc (Option String) :=
  match fields.lookup "message" with
  | none => .ok none
  | some v => Except.map some (validateMessage v)

/-- `StandardResponse(**data)` for a decoded dictionary: every provided
field is validated (pydantic v2) and an ill-typed one raises
`ValidationError`; missing fields take their defaults; extra keys are
ignored. -/
def StandardResponse.fromDict (fields : List (String × JsonVal)) :
    Except Exc StandardResponse := do
  let data ← StandardResponse.dataField fields
  let status ← StandardResponse.statusField fields
  let message ← StandardResponse.messageField fields
  pure { data := data, status := status, message := message }

/-- `StandardResponse(data=d, status=s, message=m)` with explicit
keyword values, as validated by pydantic v2: every passed value is
validated, so `message=None` raises. -/
def StandardResponse.mkKwargs (d s m : JsonVal) : Except Exc StandardResponse := do
  let data ← validateData d
  let status ← validateStatus s
  let message ← Except.map some (validateMessage m)
  pure { data := data, status := status, message := message }

/-- A Python value flowing through the wrapper: a `StandardResponse`
(it has `to_dict`), some other JSON-serializable value, or a value that
`json.dumps` cannot encode, carried by its `str()` form. -/
inductive PyVal where
  | sr (r : StandardResponse)
  | json (j : JsonVal)
  | raw (s : String)

/-- The serialization step of the wrapper (lines 121-132): results with
`to_dict` are dumped from their canonical dictionary; other values are
dumped generically (`default=str`); a value that still cannot be encoded
falls back to `json.dumps(str(result))`. -/
def serializeResult : PyVal → Bytes
  | .sr r => .json r.to_dict
  | .json j => .json j
  | .raw s => .json (.str s)

/-- The cache-hit decode step (lines 95-114): when the wrapped function
is annotated to return `StandardResponse` (`isSR`), a decoded dict is
rebuilt via `StandardResponse(**data)`; a decoded string takes the
branch `StandardResponse(data={"response": data}, status="success",
message=None)` and any other decoded value the branch with
`data={"cached_value": v}` — under pydantic v2 both of these pass
`message=None` explicitly and therefore raise `ValidationError`.  For
any other return annotation the decoded JSON is returned as-is. -/
def decodeCached (isSR : Bool) (data : JsonVal) : Except Exc PyVal :=
  if isSR then
    match data with
    | .obj fields => Except.map PyVal.sr (StandardResponse.fromDict fields)
    | .str s =>
        Except.map PyVal.sr
          (StandardResponse.mkKwargs (.obj [("response", .str s)]) (.str "success") .null)
    | v =>
        Except.map PyVal.sr
          (StandardResponse.mkKwargs (.obj [("cached_value", v)]) (.str "success") .null)
  else .ok (.json data)

/-- A scalar Python argument as classified by
`isinstance(arg, (str, int, float, bool))`.  Floats are carried by their
`str()` rendering, which is all the key builder uses of them. -/
inductive PyScalar where
  | s (v : String)
  | i (v : Int)
  | f (rendered : String)
  | b (v : Bool)
deriving DecidableEq, Repr

/-- A positional or keyword argument: a scalar, or any non-scalar object
(tagged by an identifier so that distinct objects can be written down). -/
inductive PyArg where
  | scalar (v : PyScalar)
  | nonScalar (id : Nat)
deriving DecidableEq, Repr

/-- Python `str()` of a scalar (`str(True) = "True"`). -/
def pyStr : PyScalar → String
  | .s v => v
  | .i v => toString v
  | .f rendered => rendered
  | .b true => "True"
  | .b false => "False"

/-- Lexicographic comparison of strings by code point, as Python compares
`str` values in `sorted(kwargs.items())` (dict keys are unique, so the
tuple comparison never looks at the values). -/
def pyLe : List Char → List Char → Bool
  | [], _ => true
  | _ :: _, [] => false
  | a :: as, b :: bs =>
    if a.toNat < b.toNat then true
    else if b.toNat < a.toNat then false
    else pyLe as bs

/-- Order on kwarg items: compare the keyword names. -/
def kwRel (x y : String × PyArg) : Prop := pyLe x.1.toList y.1.toList = true

instance : DecidableRel kwRel := fun _ _ =>
  inferInstanceAs (Decidable (_ = true))

/-- `sorted(kwargs.items())` (line 62): the items sorted by keyword name. -/
def sortedItems (kwargs : List (String × PyArg)) : List (String × PyArg) :=
  List.insertionSort kwRel kwargs

/-- The contribution of one positional argument to `key_parts`
(lines 57-59): its `str()` form if it is scalar, nothing otherwise. -/
def posPart : PyArg → Option String
  | .scalar v => some (pyStr v)
  | .nonScalar _ => none

/-- The contribution of one keyword item to `key_parts` (lines 62-64):
the string `f"{k}:{v}"` if the value is scalar, nothing otherwise. -/
def kwPart : String × PyArg → Option String
  | (k, .scalar v) => some (k ++ ":" ++ pyStr v)
  | (_, .nonScalar _) => none

/-- `create_cache_key` (lines 49-68 of `src/utils/cache.py`): start from
the prefix, append the scalar positional arguments in call order, append
the scalar keyword arguments sorted by name, join with `":"`. -/
def create_cache_key (pfx : String) (args : List PyArg)
    (kwargs : List (String × PyArg)) : String :=
  let key_parts : List String := [pfx]
  let key_parts := key_parts ++ args.filterMap posPart
  let key_parts := key_parts ++ (sortedItems kwargs).filterMap kwPart
  String.intercalate ":" key_parts

/-- Canonical form of an argument that forgets which non-scalar object
was passed; the key builder cannot distinguish arguments with the same
canonical form. -/
def argCanon : PyArg → PyArg
  | .scalar v => .scalar v
  | .nonScalar _ => .nonScalar 0

/-- Canonical form of a keyword item. -/
def kvCanon (kv : String × PyArg) : String × PyArg := (kv.1, argCanon kv.2)

/-- Result of one invocation of the async cache wrapper: the value
returned (or exception raised) to the caller, how many times the wrapped
producer was invoked, and the `setex` writes attempted, each with its
key, TTL and payload. -/
structure ExecResult where
  ret : Except Exc PyVal
  producerCalls : Nat
  setexAttempts : List (String × Nat × Bytes)

/-- The miss continuation of `async_wrapper` (lines 116-149): invoke the
producer (invocation index 0); a producer exception is caught by the
generic handlers, which invoke the producer again (index 1) outside any
handler; on success, serialize and attempt `setex`, whose failure is
likewise caught by the handlers, which invoke the producer again. -/
def cacheMissRun (cache_key : String) (ttl : Nat)
    (setexOutcome : Except Exc Unit) (func : Nat → Except Exc PyVal) : ExecResult :=
  match func 0 with
  | .error _ => { ret := func 1, producerCalls := 2, setexAttempts := [] }
  | .ok result =>
    let serialized := serializeResult result
    match setexOutcome with
    | .error _ =>
        { ret := func 1, producerCalls := 2
          setexAttempts := [(cache_key, ttl, serialized)] }
    | .ok _ =>
        { ret := .ok result, producerCalls := 1
          setexAttempts := [(cache_key, ttl, serialized)] }

/-- `async_wrapper` (lines 85-149 of `src/utils/cache.py`).  `funcPfx`
and `ttl` are the decorator parameters after defaulting, `isSR` tells
whether the wrapped function is annotated to return `StandardResponse`,
`getOutcome` is the outcome of the single `get` call, `setexOutcome` the
outcome of the `setex` call should one be issued, and `func n` the
outcome of the n-th producer invocation. -/
def async_wrapper (funcPfx : String) (ttl : Nat) (isSR : Bool)
    (args : List PyArg) (kwargs : List (String × PyArg))
    (getOutcome : Except Exc (Option Bytes)) (setexOutcome : Except Exc Unit)
    (func : Nat → Except Exc PyVal) : ExecResult :=
  let cache_key := create_cache_key funcPfx args kwargs
  match getOutcome with
  | .error _ =>
      -- the get raised; both handlers run the producer uncached
      { ret := func 0, producerCalls := 1, setexAttempts := [] }
  | .ok cached_value =>
    match cached_value with
    | none => cacheMissRun cache_key ttl setexOutcome func
    | some .empty => cacheMissRun cache_key ttl setexOutcome func
    | some .garbage =>
        -- truthy, but json.loads raises; the handler runs the producer
        { ret := func 0, producerCalls := 1, setexAttempts := [] }
    | some (.json data) =>
        match decodeCached isSR data with
        | .ok v => { ret := .ok v, producerCalls := 0, setexAttempts := [] }
        | .error _ =>
            -- a json.loads or pydantic ValidationError inside the hit
            -- path is caught by the handlers, which run the producer
            { ret := func 0, producerCalls := 1, setexAttempts := [] }

/-- The glob matching performed by Redis `KEYS`, restricted to the `*`
(any sequence) and `?` (any single character) wildcards; every other
pattern character must match literally. -/
def globMatch : List Char → List Char → Bool
  | [], [] => true
  | [], _ :: _ => false
  | p :: ps, [] => if p = '*' then globMatch ps [] else false
  | p :: ps, k :: ks =>
    if p = '*' then globMatch ps (k :: ks) || globMatch (p :: ps) ks
    else if p = '?' then globMatch ps ks
    else p == k && globMatch ps ks
termination_by p k => (p.length, k.length)

/-- The keys the backend returns for `keys(f"{prefix}:{pattern}")`:
every stored key matching the glob. -/
def matchingKeys (pfx pattern : String) (st : List (String × Bytes)) : List String :=
  (st.map Prod.fst).filter fun k => globMatch (pfx ++ ":" ++ pattern).toList k.toList

/-- The body of the `try` block of `invalidate_cache` (lines 234-240):
list the keys matching `f"{prefix}:{pattern}"`, and if there are any,
delete them in one bulk `delete` call.  Returns the resulting store and
the list of `delete` calls issued (each with the keys it was passed).
Either backend call may raise. -/
def invalidateRun (pfx pattern : String) (st : List (String × Bytes))
    (keysOutcome delOutcome : Except Exc Unit) :
    Except Exc (List (String × Bytes) × List (List String)) :=
  match keysOutcome with
  | .error e => .error e
  | .ok _ =>
    let keys := matchingKeys pfx pattern st
    if keys.isEmpty then .ok (st, [])
    else
      match delOutcome with
      | .error e => .error e
      | .ok _ => .ok (st.filter (fun kv => !(keys.contains kv.1)), [keys])

/-- `invalidate_cache` (lines 226-244 of `src/utils/cache.py`): the body
above with both `except` handlers, which log the error and fall through,
returning normally with the store as it stood. -/
def invalidate_cache (pfx pattern : String) (st : List (String × Bytes))
    (keysOutcome delOutcome : Except Exc Unit) :
    Except Exc (List (String × Bytes) × List (List String)) :=
  match invalidateRun pfx pattern st keysOutcome delOutcome with
  | .ok r => .ok r
  | .error _ => .ok (st, [])

/-- The sentinel value written by the health checks:
`json.dumps({"status": "ok", "timestamp": "now"})`. -/
def healthSentinel : Bytes :=
  .json (.obj [("status", .str "ok"), ("timestamp", .str "now")])

/-- `cache_health_check` (lines 258-279 of `src/utils/cache.py`) and its
async twin (lines 282-303, identical up to the sentinel key name): write
the fixed sentinel under `test_key` with TTL 10, read `test_key` back,
report healthy iff the value read is truthy; a `RedisError` or any other
exception is reported as unhealthy with the exception text in the
message.  The second component records the attempted write. -/
def cache_health_check (test_key : String)
    (setexOutcome : Except Exc Unit) (getOutcome : Except Exc (Option Bytes)) :
    (Bool × String) × (String × Nat × Bytes) :=
  let write := (test_key, 10, healthSentinel)
  match setexOutcome with
  | .error (.redisError m) => ((false, "Redis error: " ++ m), write)
  | .error (.otherError m) => ((false, "Unexpected error: " ++ m), write)
  | .ok _ =>
    match getOutcome with
    | .error (.redisError m) => ((false, "Redis error: " ++ m), write)
    | .error (.otherError m) => ((false, "Unexpected error: " ++ m), write)
    | .ok result =>
      if isTruthy result then ((true, "Cache is healthy"), write)
      else ((false, "Cache set succeeded but get failed"), write)

/-- Claim C6 counterexample: the round-trip fails for the default
`StandardResponse` (message `None`).  Its canonical dictionary carries
`message: null`, and reconstructing it with `StandardResponse(**data)`
under pydantic v2 raises `ValidationError` on the explicit null instead
of yielding the original response. -/
theorem C6_counterexample :
    loads (serializeResult (.sr {})) = .ok (StandardResponse.to_dict {}) ∧
    decodeCached true (StandardResponse.to_dict {}) =
      .error (.otherError "validation error: message") ∧
    decodeCached true (StandardResponse.to_dict {}) ≠ .ok (.sr {}) := by
  refine ⟨rfl, rfl, ?_⟩
  intro h
  exact Except.noConfusion h

/-- Claim C6 as amended: parsing the encoded bytes of a
`StandardResponse` always yields its canonical dictionary, and keyword
reconstruction returns the original response exactly when its `message`
is a string; when `message` is `None` (the default) the stored
dictionary carries `message: null` and pydantic v2 rejects the explicit
null, so the reconstruction raises instead of returning the response.
Generic JSON-serializable values round-trip unchanged under the generic
shape. -/
theorem C6_amended_round_trip :
    (∀ r : StandardResponse, loads (serializeResult (.sr r)) = .ok r.to_dict) ∧
    (∀ (r : StandardResponse) (m : String), r.message = some m →
      decodeCached true r.to_dict = .ok (.sr r)) ∧
    (∀ r : StandardResponse, r.message = none →
      decodeCached true r.to_dict = .error (.otherError "validation error: message")) ∧
    (∀ j : JsonVal,
      loads (serializeResult (.json j)) = .ok j ∧ decodeCached false j = .ok (.json j)) := by
  refine ⟨fun r => rfl, ?_, ?_, fun j => ⟨rfl, rfl⟩⟩
  · intro r m hm
    rcases r with ⟨d, s, msg⟩
    have hm2 : msg = some m := hm
    subst hm2
    cases d <;> rfl
  · intro r hm
    rcases r with ⟨d, s, msg⟩
    have hm2 : msg = none := hm
    subst hm2
    cases d <;> rfl

/-- Witness for C6: a response whose message is a string round-trips to
itself through encode, parse and keyword reconstruction. -/
theorem C6_witness :
    decodeCached true (StandardResponse.to_dict
      { data := some [("item_id", .num 42)], status := "success", message := some "ok" }) =
      .ok (.sr { data := some [("item_id", .num 42)], status := "success"
                 message := some "ok" }) := by
  obtain ⟨-, h2, -, -⟩ := C6_amended_round_trip
  exact h2 { data := some [("item_id", .num 42)], status := "success"
             message := some "ok" } "ok" rfl

/-- Claim C7 counterexample: a decoded plain string is NOT wrapped as
`{"response": s}` — the wrap branch constructs
`StandardResponse(..., message=None)`, which raises `ValidationError`
under pydantic v2, so the decode fails instead of producing the wrapped
response. -/
theorem C7_counterexample :
    decodeCached true (.str "hello") = .error (.otherError "validation error: message") ∧
    decodeCached true (.str "hello") ≠
      .ok (.sr { data := some [("response", .str "hello")], status := "success"
                 message := none }) := by
  refine ⟨rfl, ?_⟩
  intro h
  exact Except.noConfusion h

/-- Claim C7 as amended: under the `StandardResponse` return shape a
decoded dictionary is reconstructed by keyword construction, which
validates every provided field (a provided `message: null` always makes
the construction raise); the plain-string and other-type wrap branches
construct `StandardResponse(..., message=None)` and therefore always
raise under pydantic v2, so decode CAN fail on shape mismatch and the
wrapper falls back to the producer.  For all other expected shapes the
parsed structure is returned unmodified. -/
theorem C7_amended_decode_validation :
    (∀ fields, decodeCached true (.obj fields) =
      Except.map PyVal.sr (StandardResponse.fromDict fields)) ∧
    (∀ fields, fields.lookup "message" = some .null →
      ∃ e, StandardResponse.fromDict fields = .error e) ∧
    (∀ s, decodeCached true (.str s) = .error (.otherError "validation error: message")) ∧
    (decodeCached true .null = .error (.otherError "validation error: message")) ∧
    (∀ b, decodeCached true (.bool b) = .error (.otherError "validation error: message")) ∧
    (∀ n, decodeCached true (.num n) = .error (.otherError "validation error: message")) ∧
    (∀ l, decodeCached true (.arr l) = .error (.otherError "validation error: message")) ∧
    (∀ j, decodeCached false j = .ok (.json j)) := by
  refine ⟨fun _ => rfl, ?_, fun _ => rfl, rfl, fun _ => rfl, fun _ => rfl, fun _ => rfl,
    fun _ => rfl⟩
  intro fields h
  have hm : StandardResponse.messageField fields =
      .error (.otherError "validation error: message") := by
    unfold StandardResponse.messageField
    rw [h]
    rfl
  unfold StandardResponse.fromDict
  cases hA : StandardResponse.dataField fields with
  | error e => exact ⟨e, rfl⟩
  | ok dv =>
    cases hB : StandardResponse.statusField fields with
    | error e => exact ⟨e, rfl⟩
    | ok sv =>
        refine ⟨.otherError "validation error: message", ?_⟩
        rw [hm]
        rfl

/-- Witness for C7: a dictionary that explicitly carries
`message: null` makes keyword reconstruction raise. -/
theorem C7_witness :
    ∃ e, StandardResponse.fromDict [("message", JsonVal.null)] = .error e := by
  obtain ⟨-, h2, -, -, -, -, -, -⟩ := C7_amended_decode_validation
  exact h2 [("message", JsonVal.null)] rfl

/-- Claim C1 counterexample: a miss whose producer raises.  The wrapper
does NOT leave the producer exception alone: the generic handlers catch
it and invoke the producer a second time (two invocations), and the
caller observes the SECOND outcome, not the original error. -/
theorem C1_counterexample :
    (async_wrapper "item" 300 true [] [] (.ok none) (.ok ())
      (fun n => if n = 0 then .error (.otherError "first failure")
                else .error (.otherError "second failure"))).producerCalls = 2 ∧
    (async_wrapper "item" 300 true [] [] (.ok none) (.ok ())
      (fun n => if n = 0 then .error (.otherError "first failure")
                else .error (.otherError "second failure"))).ret =
      .error (.otherError "second failure") ∧
    (async_wrapper "item" 300 true [] [] (.ok none) (.ok ())
      (fun n => if n = 0 then .error (.otherError "first failure")
                else .error (.otherError "second failure"))).ret ≠
      .error (.otherError "first failure") := by
  refine ⟨rfl, rfl, ?_⟩
  intro h
  simp [async_wrapper, cacheMissRun] at h

/-- Claim C1 as amended: when the backend get succeeds with a miss and
the producer (invocation 0) raises, the wrapper catches that exception
in its generic handlers and invokes the producer a second time outside
any handler; the caller observes the outcome of invocation 1 (so a
deterministic producer error still reaches the caller, via the rerun),
and no backend write is attempted. -/
theorem C1_amended_producer_error_rerun
    (funcPfx : String) (ttl : Nat) (isSR : Bool) (args : List PyArg)
    (kwargs : List (String × PyArg)) (setexOutcome : Except Exc Unit)
    (func : Nat → Except Exc PyVal) (e : Exc) (h : func 0 = .error e) :
    async_wrapper funcPfx ttl isSR args kwargs (.ok none) setexOutcome func =
      { ret := func 1, producerCalls := 2, setexAttempts := [] } := by
  simp [async_wrapper, cacheMissRun, h]

/-- Witness for C1: a deterministically failing producer under a miss. -/
theorem C1_witness :
    async_wrapper "item" 300 true [] [] (.ok none) (.ok ())
      (fun _ => .error (.otherError "boom")) =
      { ret := .error (.otherError "boom"), producerCalls := 2, setexAttempts := [] } :=
  C1_amended_producer_error_rerun "item" 300 true [] [] (.ok ())
    (fun _ => .error (.otherError "boom")) (.otherError "boom") rfl

/-- Claim C2 counterexample: a miss whose producer succeeds but whose
`setex` raises.  The producer is invoked twice, not once, and the value
returned to the caller is the one from the second invocation. -/
theorem C2_counterexample :
    (async_wrapper "item" 300 false [] [] (.ok none) (.error (.redisError "down"))
      (fun n => if n = 0 then .ok (.json (.str "first value"))
                else .ok (.json (.str "second value")))).producerCalls = 2 ∧
    (async_wrapper "item" 300 false [] [] (.ok none) (.error (.redisError "down"))
      (fun n => if n = 0 then .ok (.json (.str "first value"))
                else .ok (.json (.str "second value")))).ret =
      .ok (.json (.str "second value")) ∧
    (async_wrapper "item" 300 false [] [] (.ok none) (.error (.redisError "down"))
      (fun n => if n = 0 then .ok (.json (.str "first value"))
                else .ok (.json (.str "second value")))).ret ≠
      .ok (.json (.str "first value")) := by
  refine ⟨rfl, rfl, ?_⟩
  intro h
  simp [async_wrapper, cacheMissRun] at h

/-- Claim C2 as amended: on a miss with a successful producer
(invocation 0 returns `v`) and a failing `setex`, the `setex` error is
caught and never propagated, exactly one write of the serialized `v`
under the derived key with the configured TTL is attempted, but the
handler invokes the producer a second time and the caller receives the
outcome of invocation 1 instead of `v`. -/
theorem C2_amended_setex_failure_rerun
    (funcPfx : String) (ttl : Nat) (isSR : Bool) (args : List PyArg)
    (kwargs : List (String × PyArg)) (e : Exc)
    (func : Nat → Except Exc PyVal) (v : PyVal) (h : func 0 = .ok v) :
    async_wrapper funcPfx ttl isSR args kwargs (.ok none) (.error e) func =
      { ret := func 1, producerCalls := 2,
        setexAttempts := [(create_cache_key funcPfx args kwargs, ttl, serializeResult v)] } := by
  simp [async_wrapper, cacheMissRun, h]

/-- Witness for C2: concrete miss with failing write. -/
theorem C2_witness :
    async_wrapper "item" 300 false [] [] (.ok none) (.error (.redisError "down"))
      (fun _ => .ok (.json (.str "answer"))) =
      { ret := .ok (.json (.str "answer")), producerCalls := 2,
        setexAttempts := [("item", 300, .json (.str "answer"))] } :=
  C2_amended_setex_failure_rerun "item" 300 false [] [] (.redisError "down")
    (fun _ => .ok (.json (.str "answer"))) (.json (.str "answer")) rfl

/-- Claim C3: fail-open under backend outage.  If the backend `get`
raises, the wrapper runs the producer once, returns its outcome to the
caller (so a successful producer value is returned unchanged), attempts
no write, and never surfaces the backend error; `invalidate_cache`
swallows a raising `keys` or `delete` call and returns normally with the
store untouched. -/
theorem C3_fail_open_backend_outage :
    (∀ (funcPfx : String) (ttl : Nat) (isSR : Bool) (args : List PyArg)
        (kwargs : List (String × PyArg)) (e : Exc) (setexOutcome : Except Exc Unit)
        (func : Nat → Except Exc PyVal),
      async_wrapper funcPfx ttl isSR args kwargs (.error e) setexOutcome func =
        { ret := func 0, producerCalls := 1, setexAttempts := [] }) ∧
    (∀ (pfx pattern : String) (st : List (String × Bytes)) (e : Exc)
        (delOutcome : Except Exc Unit),
      invalidate_cache pfx pattern st (.error e) delOutcome = .ok (st, [])) ∧
    (∀ (pfx pattern : String) (st : List (String × Bytes)) (e : Exc),
      invalidate_cache pfx pattern st (.ok ()) (.error e) = .ok (st, [])) := by
  refine ⟨fun _ _ _ _ _ _ _ _ => rfl, fun _ _ _ _ _ => rfl, fun pfx pattern st e => ?_⟩
  unfold invalidate_cache invalidateRun
  by_cases h : (matchingKeys pfx pattern st).isEmpty <;> simp [h]

/-- Claim C4 counterexample: the backend get returns a non-empty value
that is not valid JSON.  The wrapper does not return a decoded cached
value; the decode error is caught and the producer IS invoked. -/
theorem C4_counterexample :
    (async_wrapper "item" 300 true [] [] (.ok (some .garbage)) (.ok ())
      (fun _ => .ok (.json (.str "fresh")))).producerCalls = 1 ∧
    (async_wrapper "item" 300 true [] [] (.ok (some .garbage)) (.ok ())
      (fun _ => .ok (.json (.str "fresh")))).producerCalls ≠ 0 ∧
    (async_wrapper "item" 300 true [] [] (.ok (some .garbage)) (.ok ())
      (fun _ => .ok (.json (.str "fresh")))).ret = .ok (.json (.str "fresh")) := by
  exact ⟨rfl, by decide, rfl⟩

/-- Claim C4 as amended: for every key whose backend get returns a
non-empty value that parses as JSON and decodes successfully under the
return shape of the operation, the wrapper returns the decoded value
with zero producer invocations and zero backend writes; a non-empty
value that fails to parse, or whose decode raises — under the
`StandardResponse` shape a string or other non-dict payload, or a dict
rejected by pydantic v2 validation — falls back to one uncached
producer invocation; an empty value is treated exactly like an absent
one (a miss).  A hit therefore requires a non-empty get result, and on
a hit the backend state is left unchanged. -/
theorem C4_amended_hit_suppresses_producer :
    (∀ (funcPfx : String) (ttl : Nat) (isSR : Bool) (args : List PyArg)
        (kwargs : List (String × PyArg)) (setexOutcome : Except Exc Unit)
        (func : Nat → Except Exc PyVal) (j : JsonVal) (v : PyVal),
      decodeCached isSR j = .ok v →
      async_wrapper funcPfx ttl isSR args kwargs (.ok (some (.json j))) setexOutcome func =
        { ret := .ok v, producerCalls := 0, setexAttempts := [] }) ∧
    (∀ (funcPfx : String) (ttl : Nat) (isSR : Bool) (args : List PyArg)
        (kwargs : List (String × PyArg)) (setexOutcome : Except Exc Unit)
        (func : Nat → Except Exc PyVal) (j : JsonVal) (e : Exc),
      decodeCached isSR j = .error e →
      async_wrapper funcPfx ttl isSR args kwargs (.ok (some (.json j))) setexOutcome func =
        { ret := func 0, producerCalls := 1, setexAttempts := [] }) ∧
    (∀ (funcPfx : String) (ttl : Nat) (isSR : Bool) (args : List PyArg)
        (kwargs : List (String × PyArg)) (setexOutcome : Except Exc Unit)
        (func : Nat → Except Exc PyVal),
      async_wrapper funcPfx ttl isSR args kwargs (.ok (some .empty)) setexOutcome func =
        async_wrapper funcPfx ttl isSR args kwargs (.ok none) setexOutcome func) ∧
    (∀ (funcPfx : String) (ttl : Nat) (isSR : Bool) (args : List PyArg)
        (kwargs : List (String × PyArg)) (setexOutcome : Except Exc Unit)
        (func : Nat → Except Exc PyVal),
      async_wrapper funcPfx ttl isSR args kwargs (.ok (some .garbage)) setexOutcome func =
        { ret := func 0, producerCalls := 1, setexAttempts := [] }) := by
  refine ⟨?_, ?_, fun _ _ _ _ _ _ _ => rfl, fun _ _ _ _ _ _ _ => rfl⟩
  · intro funcPfx ttl isSR args kwargs setexOutcome func j v h
    simp [async_wrapper, h]
  · intro funcPfx ttl isSR args kwargs setexOutcome func j e h
    simp [async_wrapper, h]

/-- Witness for C4: a cached dict that passes validation is returned
with no producer call; a cached JSON string under the
`StandardResponse` shape fails validation and the producer runs once. -/
theorem C4_witness :
    async_wrapper "item" 300 true [] [] (.ok (some (.json (.obj [("data", .null)]))))
        (.ok ()) (fun _ => .ok (.json (.str "fresh"))) =
      { ret := .ok (.sr { data := none, status := "success", message := none }),
        producerCalls := 0, setexAttempts := [] } ∧
    async_wrapper "item" 300 true [] [] (.ok (some (.json (.str "hello"))))
        (.ok ()) (fun _ => .ok (.json (.str "fresh"))) =
      { ret := .ok (.json (.str "fresh")), producerCalls := 1, setexAttempts := [] } := by
  obtain ⟨h1, h2, -, -⟩ := C4_amended_hit_suppresses_producer
  exact ⟨h1 "item" 300 true [] [] (.ok ()) (fun _ => .ok (.json (.str "fresh")))
      (.obj [("data", .null)])
      (.sr { data := none, status := "success", message := none }) rfl,
    h2 "item" 300 true [] [] (.ok ()) (fun _ => .ok (.json (.str "fresh")))
      (.str "hello") (.otherError "validation error: message") rfl⟩

/-- Claim C9 counterexample: the health probe reports healthy on ANY
truthy read-back, without comparing it against the sentinel it wrote.
Here the read returns unparsable garbage, which is not the value that
was written, yet the probe returns `(true, "Cache is healthy")`. -/
theorem C9_counterexample :
    (cache_health_check "health:check" (.ok ()) (.ok (some .garbage))).1 =
      (true, "Cache is healthy") ∧
    (cache_health_check "health:check" (.ok ()) (.ok (some .garbage))).2 =
      ("health:check", 10, healthSentinel) ∧
    Bytes.garbage ≠ healthSentinel := by
  refine ⟨rfl, rfl, ?_⟩
  intro h
  simp [healthSentinel] at h

/-- Claim C9 as amended: the probe writes the fixed sentinel value under
the sentinel key with TTL 10 and reads the key back; it returns
`(true, "Cache is healthy")` exactly when the write succeeds and the
read succeeds with a non-empty value — the value read is NOT compared
with the value written; a read returning nothing (or an empty value)
yields `(false, "Cache set succeeded but get failed")`; and any raised
exception yields `false` with the exception text embedded in the
message, never a propagated error. -/
theorem C9_amended_health_check (tk : String) (so : Except Exc Unit)
    (go : Except Exc (Option Bytes)) :
    ((cache_health_check tk so go).1 = (true, "Cache is healthy") ↔
      (so = .ok () ∧ ∃ b, go = .ok (some b) ∧ b ≠ .empty)) ∧
    (∀ m, (cache_health_check tk (.error (.redisError m)) go).1 =
      (false, "Redis error: " ++ m)) ∧
    (∀ m, (cache_health_check tk (.error (.otherError m)) go).1 =
      (false, "Unexpected error: " ++ m)) ∧
    (∀ m, (cache_health_check tk (.ok ()) (.error (.redisError m))).1 =
      (false, "Redis error: " ++ m)) ∧
    (∀ m, (cache_health_check tk (.ok ()) (.error (.otherError m))).1 =
      (false, "Unexpected error: " ++ m)) ∧
    ((cache_health_check tk (.ok ()) (.ok none)).1 =
      (false, "Cache set succeeded but get failed")) ∧
    ((cache_health_check tk (.ok ()) (.ok (some .empty))).1 =
      (false, "Cache set succeeded but get failed")) ∧
    ((cache_health_check tk so go).2 = (tk, 10, healthSentinel)) := by
  refine ⟨?_, fun m => rfl, fun m => rfl, fun m => rfl, fun m => rfl, rfl, rfl, ?_⟩
  · constructor
    · intro h
      match so, go with
      | .ok (), .ok (some (.json j)) => exact ⟨rfl, ⟨.json j, rfl, by intro hb; cases hb⟩⟩
      | .ok (), .ok (some .garbage) => exact ⟨rfl, ⟨.garbage, rfl, by intro hb; cases hb⟩⟩
      | .ok (), .ok (some .empty) => simp [cache_health_check, isTruthy] at h
      | .ok (), .ok none => simp [cache_health_check, isTruthy] at h
      | .ok (), .error (.redisError m) => simp [cache_health_check] at h
      | .ok (), .error (.otherError m) => simp [cache_health_check] at h
      | .error (.redisError m), _ => simp [cache_health_check] at h
      | .error (.otherError m), _ => simp [cache_health_check] at h
    · rintro ⟨hso, b, hgo, hb⟩
      subst hso; subst hgo
      match b, hb with
      | .json j, _ => rfl
      | .garbage, _ => rfl
      | .empty, hb => exact absurd rfl hb
  · match so, go with
    | .ok (), .ok r => simp only [cache_health_check]; split <;> rfl
    | .ok (), .error (.redisError m) => rfl
    | .ok (), .error (.otherError m) => rfl
    | .error (.redisError m), _ => rfl
    | .error (.otherError m), _ => rfl

/-- Claim C8: bulk invalidation.  On a successful run,
`invalidate_cache` deletes exactly the stored keys matching
`prefix + ":" + pattern`: with no matching key it issues no delete call
and leaves the store unchanged, with matching keys it issues exactly one
bulk delete carrying exactly the matching keys, and an entry survives
precisely when its key does not match the glob; and for every outcome of
the two backend calls (including raising ones) the function returns
normally. -/
theorem C8_invalidate_scope :
    (∀ (pfx pattern : String) (st : List (String × Bytes)),
      matchingKeys pfx pattern st = [] →
      ∀ delOutcome, invalidate_cache pfx pattern st (.ok ()) delOutcome = .ok (st, [])) ∧
    (∀ (pfx pattern : String) (st : List (String × Bytes)),
      matchingKeys pfx pattern st ≠ [] →
      invalidate_cache pfx pattern st (.ok ()) (.ok ()) =
        .ok (st.filter (fun kv => !((matchingKeys pfx pattern st).contains kv.1)),
             [matchingKeys pfx pattern st])) ∧
    (∀ (pfx pattern : String) (st st' : List (String × Bytes)) (tr : List (List String)),
      invalidate_cache pfx pattern st (.ok ()) (.ok ()) = .ok (st', tr) →
      ∀ kv ∈ st, (kv ∈ st' ↔
        globMatch (pfx ++ ":" ++ pattern).toList kv.1.toList = false)) ∧
    (∀ (pfx pattern : String) (st : List (String × Bytes))
        (keysOutcome delOutcome : Except Exc Unit),
      ∃ r, invalidate_cache pfx pattern st keysOutcome delOutcome = .ok r) := by
  have hrun : ∀ (pfx pattern : String) (st : List (String × Bytes)),
      invalidate_cache pfx pattern st (.ok ()) (.ok ()) =
        if (matchingKeys pfx pattern st).isEmpty then .ok (st, [])
        else .ok (st.filter (fun kv => !((matchingKeys pfx pattern st).contains kv.1)),
                  [matchingKeys pfx pattern st]) := by
    intro pfx pattern st
    by_cases h : (matchingKeys pfx pattern st).isEmpty <;>
      simp [invalidate_cache, invalidateRun, h]
  refine ⟨?_, ?_, ?_, ?_⟩
  · intro pfx pattern st h delOutcome
    cases delOutcome <;> simp [invalidate_cache, invalidateRun, h]
  · intro pfx pattern st h
    rw [hrun, if_neg (by simpa [List.isEmpty_iff] using h)]
  · intro pfx pattern st st' tr h kv hkv
    rw [hrun] at h
    have hmem : kv.1 ∈ st.map Prod.fst := List.mem_map_of_mem Prod.fst hkv
    have hcontains : ((matchingKeys pfx pattern st).contains kv.1 = true) ↔
        globMatch (pfx ++ ":" ++ pattern).toList kv.1.toList = true := by
      rw [List.elem_iff]
      constructor
      · intro hx
        exact (List.mem_filter.mp hx).2
      · intro hg
        exact List.mem_filter.mpr ⟨hmem, hg⟩
    by_cases he : (matchingKeys pfx pattern st).isEmpty
    · rw [if_pos he] at h
      cases h
      have hnone : globMatch (pfx ++ ":" ++ pattern).toList kv.1.toList = false := by
        by_contra hg
        rw [Bool.not_eq_false] at hg
        have hin : kv.1 ∈ matchingKeys pfx pattern st :=
          List.mem_filter.mpr ⟨hmem, hg⟩
        rw [List.isEmpty_iff.mp he] at hin
        cases hin
      exact ⟨fun _ => hnone, fun _ => hkv⟩
    · rw [if_neg he] at h
      cases h
      constructor
      · intro hin
        have hnc := (List.mem_filter.mp hin).2
        cases hG : globMatch (pfx ++ ":" ++ pattern).toList kv.1.toList
        · rfl
        · rw [hcontains.mpr hG] at hnc
          cases hnc
      · intro hg
        refine List.mem_filter.mpr ⟨hkv, ?_⟩
        cases hcR : (matchingKeys pfx pattern st).contains kv.1
        · rfl
        · rw [hcontains.mp hcR] at hg
          cases hg
  · intro pfx pattern st keysOutcome delOutcome
    unfold invalidate_cache
    split
    · exact ⟨_, rfl⟩
    · exact ⟨_, rfl⟩

/-- Witness for C8: a store with one matching and one non-matching
entry, fully evaluated. -/
theorem C8_witness :
    invalidate_cache "item" "*" [("item:1", Bytes.garbage), ("user:2", Bytes.empty)]
        (.ok ()) (.ok ()) =
      .ok ([("user:2", Bytes.empty)], [["item:1"]]) ∧
    (("user:2", Bytes.empty) ∈ [("user:2", Bytes.empty)] ↔
      globMatch ("item" ++ ":" ++ "*").toList ("user:2" : String).toList = false) := by
  obtain ⟨h1, h2, h3, h4⟩ := C8_invalidate_scope
  have hne : matchingKeys "item" "*" [("item:1", Bytes.garbage), ("user:2", Bytes.empty)] ≠ [] := by
    simp [matchingKeys, globMatch]
  have heq := h2 "item" "*" [("item:1", Bytes.garbage), ("user:2", Bytes.empty)] hne
  have hlit : invalidate_cache "item" "*" [("item:1", Bytes.garbage), ("user:2", Bytes.empty)]
      (.ok ()) (.ok ()) = .ok ([("user:2", Bytes.empty)], [["item:1"]]) := by
    rw [heq]
    simp [matchingKeys, globMatch]
  refine ⟨hlit, ?_⟩
  exact h3 "item" "*" [("item:1", Bytes.garbage), ("user:2", Bytes.empty)]
    [("user:2", Bytes.empty)] [["item:1"]] hlit ("user:2", Bytes.empty) (by simp)

/-- Every literal `:` in a glob pattern must consume a `:` of the key:
a match forces the key to contain at least as many colons as the
pattern spells literally (`*` and `?` contribute none). -/
theorem globMatch_colon_le :
    ∀ (p k : List Char), globMatch p k = true →
      List.count ':' p ≤ List.count ':' k := by
  intro p k
  induction p, k using globMatch.induct with
  | case1 =>
      intro _
      exact le_refl _
  | case2 head tail =>
      intro h
      simp [globMatch] at h
  | case3 ps ih =>
      intro h
      rw [show globMatch ('*' :: ps) [] = globMatch ps [] by simp [globMatch]] at h
      have hle := ih h
      simpa [List.count_cons] using hle
  | case4 p ps hp =>
      intro h
      simp [globMatch, hp] at h
  | case5 ps k ks ih1 ih2 =>
      intro h
      rw [show globMatch ('*' :: ps) (k :: ks) =
          (globMatch ps (k :: ks) || globMatch ('*' :: ps) ks) by simp [globMatch]] at h
      have hstar : (('*' : Char) == ':') = false := by decide
      have hz : (if false = true then 1 else 0) = 0 := rfl
      rcases Bool.or_eq_true_iff.mp h with h1 | h2
      · have hle := ih1 h1
        simp only [List.count_cons, hstar, hz] at *
        omega
      · have hle := ih2 h2
        simp only [List.count_cons, hstar, hz] at *
        omega
  | case6 ps k ks hne ih =>
      intro h
      rw [show globMatch ('?' :: ps) (k :: ks) = globMatch ps ks by simp [globMatch]] at h
      have hq2 : (('?' : Char) == ':') = false := by decide
      have hz : (if false = true then 1 else 0) = 0 := rfl
      have hle := ih h
      simp only [List.count_cons, hq2, hz] at *
      omega
  | case7 p ps k ks hp hq ih =>
      intro h
      rw [show globMatch (p :: ps) (k :: ks) = (p == k && globMatch ps ks) by
        simp [globMatch, hp, hq]] at h
      obtain ⟨hpk, hrec⟩ := Bool.and_eq_true_iff.mp h
      have hk : p = k := beq_iff_eq.mp hpk
      subst hk
      have hle := ih hrec
      simp only [List.count_cons] at *
      omega

/-- A bare key equal to the logical prefix can never match the pattern
`prefix + ":" + "*"`: the pattern spells one more literal colon than the
bare key contains. -/
theorem globMatch_star_not_bare (p : String) :
    globMatch (p ++ ":" ++ "*").toList p.toList = false := by
  cases hg : globMatch (p ++ ":" ++ "*").toList p.toList
  · rfl
  · exfalso
    have hle := globMatch_colon_le _ _ hg
    have hsplit : (p ++ ":" ++ "*").toList = p.toList ++ [':', '*'] := by
      show (p ++ ":" ++ "*").data = p.data ++ [':', '*']
      rw [String.data_append, String.data_append, List.append_assoc]
      rfl
    rw [hsplit, List.count_append] at hle
    have hone : List.count ':' [':', '*'] = 1 := by decide
    rw [hone] at hle
    omega

/-- Claim C10: a call with no scalar positional or keyword argument
produces the bare prefix as its key, with no delimiter appended; such a
bare-prefix entry is never matched by `invalidate_cache(p, "*")` (whose
glob requires a colon after the prefix), so it survives every possible
run of the bulk invalidation. -/
theorem C10_bare_prefix_key (p : String) (args : List PyArg)
    (kwargs : List (String × PyArg))
    (h1 : ∀ a ∈ args, posPart a = none)
    (h2 : ∀ kv ∈ kwargs, kwPart kv = none) :
    create_cache_key p args kwargs = p ∧
    globMatch (p ++ ":" ++ "*").toList p.toList = false ∧
    (∀ (st : List (String × Bytes)) (b : Bytes) (keysOutcome delOutcome : Except Exc Unit),
      (p, b) ∈ st →
      ∃ st2 tr, invalidate_cache p "*" st keysOutcome delOutcome = .ok (st2, tr) ∧
        (p, b) ∈ st2) := by
  refine ⟨?_, globMatch_star_not_bare p, ?_⟩
  · show String.intercalate ":"
      (([p] ++ args.filterMap posPart) ++ (sortedItems kwargs).filterMap kwPart) = p
    have ha : args.filterMap posPart = [] := List.filterMap_eq_nil_iff.mpr h1
    have hk : (sortedItems kwargs).filterMap kwPart = [] := by
      apply List.filterMap_eq_nil_iff.mpr
      intro kv hkv
      exact h2 kv ((List.perm_insertionSort kwRel kwargs).mem_iff.mp hkv)
    rw [ha, hk, List.append_nil, List.append_nil]
    rfl
  · intro st b ko delO hmem
    cases ko with
    | error e => exact ⟨st, [], rfl, hmem⟩
    | ok u =>
      by_cases he : (matchingKeys p "*" st).isEmpty
      · refine ⟨st, [], ?_, hmem⟩
        simp [invalidate_cache, invalidateRun, he]
      · cases delO with
        | error e =>
            refine ⟨st, [], ?_, hmem⟩
            simp [invalidate_cache, invalidateRun, he]
        | ok v =>
            refine ⟨st.filter (fun kv => !((matchingKeys p "*" st).contains kv.1)),
              [matchingKeys p "*" st], ?_, ?_⟩
            · simp [invalidate_cache, invalidateRun, he]
            · refine List.mem_filter.mpr ⟨hmem, ?_⟩
              cases hc : (matchingKeys p "*" st).contains (p, b).1
              · rfl
              · exfalso
                have hin : (p, b).1 ∈ matchingKeys p "*" st := List.elem_iff.mp hc
                have hg := (List.mem_filter.mp hin).2
                rw [globMatch_star_not_bare p] at hg
                cases hg

/-- Witness for C10: a producer call whose every argument is a
non-scalar object, and a store holding the resulting bare-prefix key. -/
theorem C10_witness :
    create_cache_key "item" [PyArg.nonScalar 0] [("payload", PyArg.nonScalar 1)] = "item" ∧
    (∃ st2 tr, invalidate_cache "item" "*" [("item", Bytes.garbage)] (.ok ()) (.ok ()) =
      .ok (st2, tr) ∧ ("item", Bytes.garbage) ∈ st2) := by
  obtain ⟨hA, hB, hC⟩ := C10_bare_prefix_key "item" [PyArg.nonScalar 0]
    [("payload", PyArg.nonScalar 1)] (by decide) (by decide)
  exact ⟨hA, hC [("item", Bytes.garbage)] Bytes.garbage (.ok ()) (.ok ())
    (List.mem_singleton.mpr rfl)⟩

/-- Unfolding of `pyLe` on two cons cells. -/
theorem pyLe_cons_iff (a b : Char) (as bs : List Char) :
    pyLe (a :: as) (b :: bs) = true ↔
      (a.toNat < b.toNat ∨ (a.toNat = b.toNat ∧ pyLe as bs = true)) := by
  by_cases h1 : a.toNat < b.toNat
  · simp [pyLe, h1]
  · by_cases h2 : b.toNat < a.toNat
    · simp [pyLe, h1, h2]
      omega
    · have he : a.toNat = b.toNat := by omega
      simp [pyLe, h1, h2, he]

/-- Totality of the Python string order. -/
theorem pyLe_total (a : List Char) : ∀ b, pyLe a b = true ∨ pyLe b a = true := by
  induction a with
  | nil => intro b; left; rfl
  | cons x xs ih =>
    intro b
    cases b with
    | nil => right; rfl
    | cons y ys =>
      rcases Nat.lt_trichotomy x.toNat y.toNat with h | h | h
      · left; rw [pyLe_cons_iff]; left; exact h
      · rcases ih ys with h2 | h2
        · left; rw [pyLe_cons_iff]; right; exact ⟨h, h2⟩
        · right; rw [pyLe_cons_iff]; right; exact ⟨h.symm, h2⟩
      · right; rw [pyLe_cons_iff]; left; exact h

/-- Transitivity of the Python string order. -/
theorem pyLe_trans (a : List Char) :
    ∀ b c, pyLe a b = true → pyLe b c = true → pyLe a c = true := by
  induction a with
  | nil => intro b c _ _; rfl
  | cons x xs ih =>
    intro b c h1 h2
    cases b with
    | nil => simp [pyLe] at h1
    | cons y ys =>
      cases c with
      | nil => simp [pyLe] at h2
      | cons z zs =>
        rw [pyLe_cons_iff] at h1 h2 ⊢
        rcases h1 with h1 | ⟨he1, hr1⟩
        · rcases h2 with h2 | ⟨he2, hr2⟩
          · left; omega
          · left; omega
        · rcases h2 with h2 | ⟨he2, hr2⟩
          · left; omega
          · right; exact ⟨by omega, ih ys zs hr1 hr2⟩

/-- Antisymmetry of the Python string order. -/
theorem pyLe_antisymm (a : List Char) :
    ∀ b, pyLe a b = true → pyLe b a = true → a = b := by
  induction a with
  | nil =>
    intro b h1 h2
    cases b with
    | nil => rfl
    | cons y ys => simp [pyLe] at h2
  | cons x xs ih =>
    intro b h1 h2
    cases b with
    | nil => simp [pyLe] at h1
    | cons y ys =>
      rw [pyLe_cons_iff] at h1 h2
      rcases h1 with h1 | ⟨he1, hr1⟩
      · rcases h2 with h2 | ⟨he2, hr2⟩ <;> omega
      · rcases h2 with h2 | ⟨he2, hr2⟩
        · omega
        · have hc : x = y := Char.eq_of_val_eq (UInt32.ext he1)
          rw [hc, ih ys hr1 hr2]

instance : IsTotal (String × PyArg) kwRel :=
  ⟨fun a b => pyLe_total a.1.toList b.1.toList⟩

instance : IsTrans (String × PyArg) kwRel :=
  ⟨fun a b c => pyLe_trans a.1.toList b.1.toList c.1.toList⟩

/-- Two sorted item lists that are permutations of one another and have
duplicate-free keyword names are equal (the unique-minimum argument,
using antisymmetry on the names). -/
theorem sorted_nodup_keys_perm_eq :
    ∀ (l1 l2 : List (String × PyArg)), l1.Perm l2 →
      l1.Sorted kwRel → l2.Sorted kwRel → (l1.map Prod.fst).Nodup → l1 = l2 := by
  intro l1
  induction l1 with
  | nil =>
    intro l2 hp _ _ _
    exact hp.nil_eq
  | cons a t ih =>
    intro l2 hp hs1 hs2 hnd
    cases l2 with
    | nil =>
      have hl := hp.length_eq
      simp at hl
    | cons b t2 =>
      have hab : a = b := by
        have hainb : a ∈ b :: t2 := hp.mem_iff.mp (List.mem_cons_self a t)
        have hbina : b ∈ a :: t := hp.mem_iff.mpr (List.mem_cons_self b t2)
        rcases List.mem_cons.mp hainb with h | hain
        · exact h
        rcases List.mem_cons.mp hbina with h | hbin
        · exact h.symm
        have hab1 : kwRel a b := (List.sorted_cons.mp hs1).1 b hbin
        have hba1 : kwRel b a := (List.sorted_cons.mp hs2).1 a hain
        have hkeys : a.1 = b.1 :=
          String.ext (pyLe_antisymm a.1.toList b.1.toList hab1 hba1)
        exfalso
        rw [List.map_cons] at hnd
        exact (List.nodup_cons.mp hnd).1 (hkeys ▸ List.mem_map_of_mem Prod.fst hbin)
      subst hab
      have hnd2 : (t.map Prod.fst).Nodup := by
        rw [List.map_cons] at hnd
        exact (List.nodup_cons.mp hnd).2
      rw [ih t2 hp.cons_inv hs1.of_cons hs2.of_cons hnd2]

/-- `sorted(kwargs.items())` is invariant under reordering of the items
when the keyword names are duplicate-free (as they are for a Python
dict). -/
theorem sortedItems_perm_invariant (kw1 kw2 : List (String × PyArg))
    (hperm : kw1.Perm kw2) (hnd : (kw1.map Prod.fst).Nodup) :
    sortedItems kw1 = sortedItems kw2 := by
  apply sorted_nodup_keys_perm_eq
  · exact (List.perm_insertionSort kwRel kw1).trans
      (hperm.trans (List.perm_insertionSort kwRel kw2).symm)
  · exact List.sorted_insertionSort kwRel kw1
  · exact List.sorted_insertionSort kwRel kw2
  · exact (((List.perm_insertionSort kwRel kw1).map Prod.fst).symm).nodup hnd

/-- Inserting into a canonicalized item list commutes with
canonicalization: the comparison only reads the keyword name, which
canonicalization preserves. -/
theorem orderedInsert_map_canon (a : String × PyArg) (l : List (String × PyArg)) :
    List.orderedInsert kwRel (kvCanon a) (l.map kvCanon) =
      (List.orderedInsert kwRel a l).map kvCanon := by
  induction l with
  | nil => rfl
  | cons b t ih =>
    rw [List.map_cons, List.orderedInsert, List.orderedInsert]
    by_cases h : kwRel a b
    · have h2 : kwRel (kvCanon a) (kvCanon b) := h
      rw [if_pos h2, if_pos h, List.map_cons, List.map_cons]
    · have h2 : ¬ kwRel (kvCanon a) (kvCanon b) := h
      rw [if_neg h2, if_neg h, List.map_cons, ih]

/-- Sorting a canonicalized item list commutes with canonicalization. -/
theorem insertionSort_map_canon (l : List (String × PyArg)) :
    List.insertionSort kwRel (l.map kvCanon) =
      (List.insertionSort kwRel l).map kvCanon := by
  induction l with
  | nil => rfl
  | cons a t ih =>
    rw [List.map_cons, List.insertionSort, List.insertionSort, ih,
      orderedInsert_map_canon]

/-- The derived key only depends on the canonical forms of the
arguments: which non-scalar object was passed is invisible to it. -/
theorem create_cache_key_canon (p : String) (args : List PyArg)
    (kw : List (String × PyArg)) :
    create_cache_key p (args.map argCanon) (kw.map kvCanon) =
      create_cache_key p args kw := by
  show String.intercalate ":"
      (([p] ++ (args.map argCanon).filterMap posPart) ++
        (sortedItems (kw.map kvCanon)).filterMap kwPart) =
    String.intercalate ":"
      (([p] ++ args.filterMap posPart) ++ (sortedItems kw).filterMap kwPart)
  have h1 : (args.map argCanon).filterMap posPart = args.filterMap posPart := by
    rw [List.filterMap_map]
    congr 1
    funext a
    cases a <;> rfl
  have h2 : (sortedItems (kw.map kvCanon)).filterMap kwPart =
      (sortedItems kw).filterMap kwPart := by
    unfold sortedItems
    rw [insertionSort_map_canon, List.filterMap_map]
    congr 1
    funext kv
    rcases kv with ⟨k, a⟩
    cases a <;> rfl
  rw [h1, h2]

/-- Claim C5: `create_cache_key` is pure and deterministic; reordering
the keyword arguments (a permutation of the items of a Python dict,
whose names are duplicate-free) does not change the key; two calls whose
arguments differ only in non-scalar values produce the same key; and the
key is the `":"`-joined list of the prefix, the scalar positional
arguments in call order in their `str()` forms, then the scalar keyword
arguments as `"name:value"` sorted by name. -/
theorem C5_create_cache_key_deterministic (p : String) (args args2 : List PyArg)
    (kw kw2 kwR : List (String × PyArg)) :
    (create_cache_key p args kw = create_cache_key p args kw) ∧
    (kw.Perm kwR → (kw.map Prod.fst).Nodup →
      create_cache_key p args kw = create_cache_key p args kwR) ∧
    (args2.map argCanon = args.map argCanon → kw2.map kvCanon = kw.map kvCanon →
      create_cache_key p args2 kw2 = create_cache_key p args kw) ∧
    (create_cache_key p args kw =
      String.intercalate ":"
        (p :: (args.filterMap posPart ++ (sortedItems kw).filterMap kwPart))) := by
  refine ⟨rfl, ?_, ?_, ?_⟩
  · intro hperm hnd
    show String.intercalate ":"
        (([p] ++ args.filterMap posPart) ++ (sortedItems kw).filterMap kwPart) =
      String.intercalate ":"
        (([p] ++ args.filterMap posPart) ++ (sortedItems kwR).filterMap kwPart)
    rw [sortedItems_perm_invariant kw kwR hperm hnd]
  · intro hargs hkw
    calc create_cache_key p args2 kw2
        = create_cache_key p (args2.map argCanon) (kw2.map kvCanon) :=
          (create_cache_key_canon p args2 kw2).symm
      _ = create_cache_key p (args.map argCanon) (kw.map kvCanon) := by
          rw [hargs, hkw]
      _ = create_cache_key p args kw := create_cache_key_canon p args kw
  · show String.intercalate ":"
        (([p] ++ args.filterMap posPart) ++ (sortedItems kw).filterMap kwPart) = _
    rw [List.append_assoc]
    rfl

/-- Witness for C5: a concrete reordering of two keyword arguments, and
two calls differing only in the identity of a non-scalar argument. -/
theorem C5_witness :
    (create_cache_key "item"
        [PyArg.scalar (.s "x")]
        [("b", PyArg.scalar (.i 1)), ("a", PyArg.scalar (.b true))] =
      create_cache_key "item"
        [PyArg.scalar (.s "x")]
        [("a", PyArg.scalar (.b true)), ("b", PyArg.scalar (.i 1))]) ∧
    (create_cache_key "op" [PyArg.nonScalar 7] [("cfg", PyArg.nonScalar 5)] =
      create_cache_key "op" [PyArg.nonScalar 3] [("cfg", PyArg.nonScalar 4)]) ∧
    create_cache_key "item"
        [PyArg.scalar (.s "x")]
        [("b", PyArg.scalar (.i 1)), ("a", PyArg.scalar (.b true))] =
      "item:x:a:True:b:1" := by
  obtain ⟨-, hPerm, -, -⟩ := C5_create_cache_key_deterministic "item"
    [PyArg.scalar (.s "x")] [PyArg.scalar (.s "x")]
    [("b", PyArg.scalar (.i 1)), ("a", PyArg.scalar (.b true))]
    [("b", PyArg.scalar (.i 1)), ("a", PyArg.scalar (.b true))]
    [("a", PyArg.scalar (.b true)), ("b", PyArg.scalar (.i 1))]
  obtain ⟨-, -, hCanon, -⟩ := C5_create_cache_key_deterministic "op"
    [PyArg.nonScalar 3] [PyArg.nonScalar 7]
    [("cfg", PyArg.nonScalar 4)] [("cfg", PyArg.nonScalar 5)]
    [("cfg", PyArg.nonScalar 4)]
  refine ⟨hPerm (List.Perm.swap _ _ _) (by decide), hCanon rfl rfl, ?_⟩
  decide
